import Mathlib

/-!
# Verification of fred2ch (src/fred2ch.go)

A shallow embedding of the fred2ch command, which pulls one FRED II series
and loads it into a ClickHouse table.  The embedding covers:

* the decoded API payload (`Datum`, `Series`) mirroring the Go structs;
* the post-decode check of `getSeries` (the network and JSON decoding are
  library code; the embedding starts from the decoded `Series` value, with
  `results = none` standing for a Go nil slice — an absent or null
  `observations` key — and `results = some []` for a decoded empty array);
* the fixed `"2006-01-02"` date layout of Go's `time.Parse`/`Format` as used
  by `loadSeries` (exactly four year digits, two zero-padded month and day
  digits, month and day range-checked, Gregorian leap rule);
* `makeTable`'s field definitions and table definition (the chutils map
  indexed 0,1,2 becomes an ordered list);
* `loadSeries` as a function from the decoded series and a sink behaviour to
  the trace of sink calls, the Go return value (an optional error) and the
  internal `loaded` counter;
* `main`'s fetch-then-load control flow after a successful connection.
-/

namespace Fred2ch

/-- A calendar date as extracted by Go's `time.Parse` with layout
`"2006-01-02"` (years are 0..9999 for this layout). -/
structure Date where
  year : Nat
  month : Nat
  day : Nat
deriving DecidableEq, Repr

/-- ASCII decimal digit test, as Go's `isDigit`. -/
def isDigitChar (c : Char) : Bool := '0' ≤ c && c ≤ '9'

/-- Numeric value of an ASCII digit character. -/
def digitVal (c : Char) : Nat := c.toNat - 48

/-- The ASCII character of a decimal digit. -/
def digitChar (n : Nat) : Char := Char.ofNat (48 + n)

/-- Gregorian leap-year rule, as Go's `isLeap`. -/
def isLeap (y : Nat) : Bool := y % 4 == 0 && (y % 100 != 0 || y % 400 == 0)

/-- Days in a month, as Go's `daysIn`. -/
def daysIn (y m : Nat) : Nat :=
  if m = 2 then (if isLeap y then 29 else 28)
  else if m = 4 ∨ m = 6 ∨ m = 9 ∨ m = 11 then 30
  else 31

/-- Go's `time.Parse("2006-01-02", s)`: the layout demands exactly four year
digits, a dash, two month digits, a dash and two day digits (the zero-padded
`01` and `02` verbs require exactly two digits), consumes the whole input,
and range-checks month and day.  Returns `none` where Go returns an error. -/
def parseDate (s : String) : Option Date :=
  match s.data with
  | [y1, y2, y3, y4, c1, m1, m2, c2, d1, d2] =>
    if isDigitChar y1 && isDigitChar y2 && isDigitChar y3 && isDigitChar y4
        && c1 == '-' && isDigitChar m1 && isDigitChar m2
        && c2 == '-' && isDigitChar d1 && isDigitChar d2 then
      let y := ((digitVal y1 * 10 + digitVal y2) * 10 + digitVal y3) * 10 + digitVal y4
      let m := digitVal m1 * 10 + digitVal m2
      let d := digitVal d1 * 10 + digitVal d2
      if 1 ≤ m && m ≤ 12 && 1 ≤ d && d ≤ daysIn y m then
        some ⟨y, m, d⟩
      else none
    else none
  | _ => none

/-- Go's `appendInt` with a width: zero-pad to the width, or print all digits
when the value is wider.  Width-4 instance (the `2006` verb). -/
def pad4 (n : Nat) : List Char :=
  if n < 10000 then
    [digitChar (n / 1000 % 10), digitChar (n / 100 % 10),
     digitChar (n / 10 % 10), digitChar (n % 10)]
  else (Nat.repr n).data

/-- Width-2 instance of Go's `appendInt` (the `01` and `02` verbs). -/
def pad2 (n : Nat) : List Char :=
  if n < 100 then [digitChar (n / 10 % 10), digitChar (n % 10)]
  else (Nat.repr n).data

/-- Go's `dt.Format("2006-01-02")`: build the output buffer verb by verb. -/
def formatDate (dt : Date) : String :=
  ⟨pad4 dt.year ++ '-' :: pad2 dt.month ++ '-' :: pad2 dt.day⟩

/-- The sentinel used by `loadSeries` for unparseable dates:
`time.Date(1969, 1, 1, 0, 0, 0, 0, time.UTC)`. -/
def missing : Date := ⟨1969, 1, 1⟩

/-- `Datum` — the data for a single date (Go struct `Datum`). -/
structure Datum where
  rtStart : String := ""
  rtEnd : String := ""
  date : String := ""
  value : String := ""
deriving DecidableEq, Repr

/-- `Series` — the outermost struct returned by the http Get (Go struct
`Series`).  `results = none` models a Go nil `Results` slice (absent or null
`observations` key); `results = some l` models a decoded array, possibly
empty. -/
structure Series where
  observationStart : String := ""
  observationEnd : String := ""
  units : String := ""
  orderBy : String := ""
  count : Int := 0
  realtimeStart : String := ""
  realtimeEnd : String := ""
  outputType : Int := 0
  fileType : String := ""
  sortOrder : String := ""
  offset : Int := 0
  limit : Int := 0
  results : Option (List Datum) := none
deriving DecidableEq, Repr

/-- The post-decode check of `getSeries`: a nil `Results` slice is the
"no data returned" error naming the series; anything else is returned. -/
def getSeriesCheck (seriesId : String) (parsed : Series) : Except String Series :=
  if parsed.results = none then
    .error ("no data returned for series " ++ seriesId)
  else .ok parsed

/-- chutils column base types used by `makeTable`. -/
inductive ChBaseType
  | chString
  | chDate
  | chFloat
deriving DecidableEq, Repr

/-- chutils `ChField`: base type plus a length (32 for the Float32 column,
0 — the zero value — elsewhere). -/
structure ChField where
  base : ChBaseType
  length : Nat := 0
deriving DecidableEq, Repr

/-- chutils `FieldDef` as populated by `makeTable` (the `Legal` field is the
empty `LegalValues{}` for every column and is omitted). -/
structure FieldDef where
  name : String
  chSpec : ChField
  description : String
deriving DecidableEq, Repr

/-- chutils table engines; `makeTable` always uses `MergeTree`. -/
inductive TableEngine
  | mergeTree
deriving DecidableEq, Repr

/-- chutils `TableDef` built by `chutils.NewTableDef(key, engine, fds)`.
The Go field map is indexed 0,1,2; it is rendered here as the list of its
values in index order. -/
structure TableDef where
  key : String
  engine : TableEngine
  fds : List FieldDef
deriving DecidableEq, Repr

/-- The field definitions `makeTable` builds for a series: three columns
whose layout is fixed; the series id appears only in the value column's
description. -/
def makeTableFds (seriesId : String) : List FieldDef :=
  [ { name := "seriesId", chSpec := { base := .chString },
      description := "Fred II series ID" },
    { name := "date", chSpec := { base := .chDate },
      description := "date of metric value" },
    { name := "value", chSpec := { base := .chFloat, length := 32 },
      description := "metric value for series " ++ seriesId } ]

/-- The `TableDef` that `makeTable` passes to `td.Create`: keyed by `date`,
engine `MergeTree`. -/
def makeTableTd (seriesId : String) : TableDef :=
  { key := "date", engine := .mergeTree, fds := makeTableFds seriesId }

/-- The calls `loadSeries` makes against the sink, in order:
table (re)creation (drops any prior table), row writes, the single
`Insert` commit, and the deferred writer close. -/
inductive SinkOp
  | createTable (table : String) (td : TableDef)
  | write (line : String)
  | insert
  | closeWriter
deriving DecidableEq, Repr

/-- The sink's disposition: whether the create-table call succeeds, whether
the n-th row write succeeds (counted from 0), and whether the final
`Insert` succeeds.  The embedding is parameterised over it so that the
mid-stream failure paths of `loadSeries` can be examined. -/
structure SinkBehavior where
  createOK : Bool
  writeOK : Nat → Bool
  insertOK : Bool

/-- A sink on which every call succeeds. -/
def allOk : SinkBehavior := ⟨true, fun _ => true, true⟩

/-- The distinguishable error exits of `loadSeries` (Go returns opaque
`error` values; these tag which call produced the error). -/
inductive LoadError
  | schemaError
  | writeError
  | commitError
deriving DecidableEq, Repr

/-- The row line built by `loadSeries`:
`fmt.Sprintf("'%s','%s',%v", seriesId, dt.Format("2006-01-02"), d.Value)`
(`%v` of a Go string is the string itself). -/
def rowLine (seriesId : String) (dt : Date) (value : String) : String :=
  "'" ++ seriesId ++ "','" ++ formatDate dt ++ "'," ++ value

/-- The date `loadSeries` resolves for an observation: the parsed date, or
the `missing` sentinel when parsing fails. -/
def resolveDate (s : String) : Date :=
  match parseDate s with
  | some dt => dt
  | none => missing

/-- The observation loop of `loadSeries`: for each datum, parse the date
(substituting `missing` on failure), skip any date with year < 1970, else
write the three-field row line; a failed write returns immediately with the
write error.  After the loop, the single `Insert` call.  Arguments `w` and
`loaded` thread the number of write calls made so far and Go's `loaded`
counter; the result is the emitted sink-op trace, the Go error value
(`none` = nil) and the final counter. -/
def loadLoop (seriesId : String) (sink : SinkBehavior) :
    List Datum → Nat → Nat → List SinkOp × Option LoadError × Nat
  | [], _, loaded =>
    ([.insert], if sink.insertOK then none else some .commitError, loaded)
  | d :: rest, w, loaded =>
    let dt := resolveDate d.date
    if dt.year < 1970 then
      loadLoop seriesId sink rest w loaded
    else
      let line := rowLine seriesId dt d.value
      if sink.writeOK w then
        let out := loadLoop seriesId sink rest (w + 1) (loaded + 1)
        (.write line :: out.1, out.2)
      else
        ([.write line], some .writeError, loaded)

/-- The outcome of `loadSeries`: the trace of sink calls, the Go return
value (`none` for a nil error) and the internal `loaded` counter. -/
structure LoadOutcome where
  ops : List SinkOp
  err : Option LoadError
  loaded : Nat
deriving DecidableEq, Repr

/-- `loadSeries data seriesId table sink`: create the table (any failure is
returned before a writer exists), then run the observation loop over
`data.Results` (a nil slice iterates zero times) and finally the deferred
`wtr.Close()`. -/
def loadSeries (data : Series) (seriesId table : String)
    (sink : SinkBehavior) : LoadOutcome :=
  if sink.createOK then
    let body := loadLoop seriesId sink (data.results.getD []) 0 0
    { ops := .createTable table (makeTableTd seriesId) :: body.1 ++ [.closeWriter],
      err := body.2.1, loaded := body.2.2 }
  else
    { ops := [.createTable table (makeTableTd seriesId)],
      err := some .schemaError, loaded := 0 }

/-- The pipeline result as `main` sees it after the ClickHouse connection:
a fatal fetch error, a fatal load error, or success. -/
inductive PipeResult
  | fetchFailed (msg : String)
  | loadFailed (e : LoadError)
  | ok
deriving DecidableEq, Repr

/-- `main`'s control flow from a decoded response on: `getSeries` first
(`log.Fatalln` on error, before any sink call), then `loadSeries`. -/
def run (parsed : Series) (seriesId table : String)
    (sink : SinkBehavior) : List SinkOp × PipeResult :=
  match getSeriesCheck seriesId parsed with
  | .error msg => ([], .fetchFailed msg)
  | .ok s =>
    let out := loadSeries s seriesId table sink
    (out.ops,
      match out.err with
      | some e => .loadFailed e
      | none => .ok)

/-- The lines handed to the sink's row writer, in order, within a trace. -/
def writtenLines : List SinkOp → List String
  | [] => []
  | .write line :: rest => line :: writtenLines rest
  | _ :: rest => writtenLines rest

/-- The row line the loop produces for one observation, or `none` when the
floor check drops it: the per-observation summary of the loop body. -/
def keptLine (seriesId : String) (d : Datum) : Option String :=
  if (resolveDate d.date).year < 1970 then none
  else some (rowLine seriesId (resolveDate d.date) d.value)

/-- The row lines a run writes, in observation order. -/
def keptLines (seriesId : String) (ds : List Datum) : List String :=
  ds.filterMap (keptLine seriesId)

/-- Whether a string has the `YYYY-MM-DD` shape: four digits, a dash, two
digits, a dash, two digits. -/
def isDateShape (s : String) : Bool :=
  match s.data with
  | [a, b, c, d, e, f, g, h, i, j] =>
    isDigitChar a && isDigitChar b && isDigitChar c && isDigitChar d
      && e == '-' && isDigitChar f && isDigitChar g && h == '-'
      && isDigitChar i && isDigitChar j
  | _ => false

/-- Scan to the next single quote: the field read so far and the remainder
after the closing quote, or `none` when no quote closes the field. -/
def fieldSplit : List Char → Option (List Char × List Char)
  | [] => none
  | c :: rest =>
    if c = '\'' then some ([], rest)
    else
      match fieldSplit rest with
      | some (f, r) => some (c :: f, r)
      | none => none

/-- Modelled from the spec: the sink's row protocol (chutils' SQL writer is
not under src/) expects each row line as three fields — a single-quoted
string, a single-quoted string, and an unquoted literal: an opening quote,
a field closed by the next quote, a comma, another quoted field, a comma,
and a trailing field containing no quote. -/
def wellFormedRow (line : String) : Bool :=
  match line.data with
  | [] => false
  | c0 :: rest =>
    c0 == '\'' &&
      match fieldSplit rest with
      | some (_, ',' :: '\'' :: rest2) =>
        match fieldSplit rest2 with
        | some (_, ',' :: rest3) => !rest3.contains '\''
        | _ => false
      | _ => false

/-! ## Character and date-format lemmas -/

lemma isDigitChar_toNat {c : Char} (h : isDigitChar c = true) :
    48 ≤ c.toNat ∧ c.toNat ≤ 57 := by
  simp only [isDigitChar, Bool.and_eq_true, decide_eq_true_eq] at h
  obtain ⟨h1, h2⟩ := h
  rw [Char.le_def, UInt32.le_def] at h1 h2
  exact ⟨h1, h2⟩

lemma digitChar_digitVal {c : Char} (h : isDigitChar c = true) :
    digitChar (digitVal c) = c := by
  obtain ⟨h1, h2⟩ := isDigitChar_toNat h
  have : 48 + digitVal c = c.toNat := by simp only [digitVal]; omega
  rw [digitChar, this, Char.ofNat_toNat]

lemma digitVal_le {c : Char} (h : isDigitChar c = true) : digitVal c ≤ 9 := by
  obtain ⟨h1, h2⟩ := isDigitChar_toNat h
  simp only [digitVal]; omega

lemma isDigitChar_digitChar {n : Nat} (h : n ≤ 9) :
    isDigitChar (digitChar n) = true := by
  interval_cases n <;> decide

lemma pad4_digits {a b c d : Nat} (ha : a ≤ 9) (hb : b ≤ 9) (hc : c ≤ 9)
    (hd : d ≤ 9) :
    pad4 (((a * 10 + b) * 10 + c) * 10 + d) =
      [digitChar a, digitChar b, digitChar c, digitChar d] := by
  have h1 : (((a * 10 + b) * 10 + c) * 10 + d) / 1000 % 10 = a := by omega
  have h2 : (((a * 10 + b) * 10 + c) * 10 + d) / 100 % 10 = b := by omega
  have h3 : (((a * 10 + b) * 10 + c) * 10 + d) / 10 % 10 = c := by omega
  have h4 : (((a * 10 + b) * 10 + c) * 10 + d) % 10 = d := by omega
  rw [pad4, if_pos (by omega), h1, h2, h3, h4]

lemma pad2_digits {a b : Nat} (ha : a ≤ 9) (hb : b ≤ 9) :
    pad2 (a * 10 + b) = [digitChar a, digitChar b] := by
  have h1 : (a * 10 + b) / 10 % 10 = a := by omega
  have h2 : (a * 10 + b) % 10 = b := by omega
  rw [pad2, if_pos (by omega), h1, h2]

/-- Formatting inverts parsing: a string accepted by the `"2006-01-02"`
layout is reproduced character for character by `Format` of the parsed
date. -/
lemma parseDate_format {s : String} {dt : Date} (h : parseDate s = some dt) :
    formatDate dt = s := by
  obtain ⟨l⟩ := s
  unfold parseDate at h
  simp only at h
  split at h
  case h_2 => exact absurd h (by simp)
  case h_1 y1 y2 y3 y4 c1 m1 m2 c2 d1 d2 =>
    split at h
    case isFalse => exact absurd h (by simp)
    case isTrue hcond =>
      split at h
      case isFalse => exact absurd h (by simp)
      case isTrue hrange =>
        simp only [Bool.and_eq_true, beq_iff_eq] at hcond
        obtain ⟨⟨⟨⟨⟨⟨⟨⟨⟨hy1, hy2⟩, hy3⟩, hy4⟩, hc1⟩, hm1⟩, hm2⟩, hc2⟩, hd1⟩, hd2⟩ := hcond
        injection h with h
        subst h
        show (⟨_⟩ : String) = _
        congr 1
        rw [pad4_digits (digitVal_le hy1) (digitVal_le hy2) (digitVal_le hy3)
            (digitVal_le hy4)]
        rw [pad2_digits (digitVal_le hm1) (digitVal_le hm2)]
        rw [pad2_digits (digitVal_le hd1) (digitVal_le hd2)]
        rw [digitChar_digitVal hy1, digitChar_digitVal hy2, digitChar_digitVal hy3,
            digitChar_digitVal hy4, digitChar_digitVal hm1, digitChar_digitVal hm2,
            digitChar_digitVal hd1, digitChar_digitVal hd2, hc1, hc2]
        rfl

lemma parseDate_bounds {s : String} {dt : Date} (h : parseDate s = some dt) :
    dt.year < 10000 ∧ dt.month < 100 ∧ dt.day < 100 := by
  obtain ⟨l⟩ := s
  unfold parseDate at h
  simp only at h
  split at h
  case h_2 => exact absurd h (by simp)
  case h_1 y1 y2 y3 y4 c1 m1 m2 c2 d1 d2 =>
    split at h
    case isFalse => exact absurd h (by simp)
    case isTrue hcond =>
      split at h
      case isFalse => exact absurd h (by simp)
      case isTrue hrange =>
        simp only [Bool.and_eq_true, beq_iff_eq] at hcond
        obtain ⟨⟨⟨⟨⟨⟨⟨⟨⟨hy1, hy2⟩, hy3⟩, hy4⟩, hc1⟩, hm1⟩, hm2⟩, hc2⟩, hd1⟩, hd2⟩ := hcond
        injection h with h
        subst h
        have b1 := digitVal_le hy1; have b2 := digitVal_le hy2
        have b3 := digitVal_le hy3; have b4 := digitVal_le hy4
        have b5 := digitVal_le hm1; have b6 := digitVal_le hm2
        have b7 := digitVal_le hd1; have b8 := digitVal_le hd2
        refine ⟨by simp; omega, by simp; omega, by simp; omega⟩

lemma resolveDate_bounds (s : String) :
    (resolveDate s).year < 10000 ∧ (resolveDate s).month < 100 ∧
      (resolveDate s).day < 100 := by
  unfold resolveDate
  split
  case h_1 dt hdt => exact parseDate_bounds hdt
  case h_2 => simp [missing]

lemma isDateShape_formatDate {dt : Date} (hy : dt.year < 10000)
    (hm : dt.month < 100) (hd : dt.day < 100) :
    isDateShape (formatDate dt) = true := by
  have d9 : ∀ n : Nat, n % 10 ≤ 9 := fun n => by omega
  unfold formatDate isDateShape pad4 pad2
  rw [if_pos hy, if_pos hm, if_pos hd]
  simp [isDigitChar_digitChar (d9 _)]

/-! ## Loader-loop lemmas -/

lemma loadLoop_skip {seriesId : String} {sink : SinkBehavior} {d : Datum}
    {rest : List Datum} {w loaded : Nat}
    (h : (resolveDate d.date).year < 1970) :
    loadLoop seriesId sink (d :: rest) w loaded =
      loadLoop seriesId sink rest w loaded := by
  simp [loadLoop, h]

lemma loadLoop_allWrites {seriesId : String} {sink : SinkBehavior}
    (hw : ∀ i, sink.writeOK i = true) (ds : List Datum) :
    ∀ w loaded, loadLoop seriesId sink ds w loaded =
      ((keptLines seriesId ds).map SinkOp.write ++ [SinkOp.insert],
       if sink.insertOK then none else some LoadError.commitError,
       loaded + (keptLines seriesId ds).length) := by
  induction ds with
  | nil => intro w loaded; simp [loadLoop, keptLines]
  | cons d rest ih =>
    intro w loaded
    by_cases hy : (resolveDate d.date).year < 1970
    · simp [loadLoop, hy, keptLines, keptLine, ih, List.filterMap_cons]
    · simp [loadLoop, hy, keptLines, keptLine, hw w, ih, List.filterMap_cons]
      omega

lemma loadLoop_writeError_no_insert {seriesId : String} {sink : SinkBehavior}
    (ds : List Datum) :
    ∀ w loaded, (loadLoop seriesId sink ds w loaded).2.1 = some LoadError.writeError →
      SinkOp.insert ∉ (loadLoop seriesId sink ds w loaded).1 := by
  induction ds with
  | nil =>
    intro w loaded h
    simp only [loadLoop] at h
    split at h
    all_goals simp_all
  | cons d rest ih =>
    intro w loaded h
    by_cases hy : (resolveDate d.date).year < 1970
    · rw [loadLoop_skip hy] at h ⊢
      exact ih w loaded h
    · by_cases hw : sink.writeOK w = true
      · simp only [loadLoop, hy, if_false, hw, if_true] at h ⊢
        simp only [List.mem_cons, not_or]
        exact ⟨by simp, ih (w + 1) (loaded + 1) h⟩
      · simp only [loadLoop, hy, if_false] at h ⊢
        rw [if_neg hw] at h ⊢
        simp

lemma loadLoop_write_mem {seriesId : String} {sink : SinkBehavior}
    (ds : List Datum) :
    ∀ w loaded line, SinkOp.write line ∈ (loadLoop seriesId sink ds w loaded).1 →
      ∃ d, d ∈ ds ∧ 1970 ≤ (resolveDate d.date).year ∧
        line = rowLine seriesId (resolveDate d.date) d.value := by
  induction ds with
  | nil =>
    intro w loaded line h
    simp [loadLoop] at h
  | cons d rest ih =>
    intro w loaded line h
    by_cases hy : (resolveDate d.date).year < 1970
    · rw [loadLoop_skip hy] at h
      obtain ⟨d', hd', hy', hl'⟩ := ih w loaded line h
      exact ⟨d', List.mem_cons_of_mem _ hd', hy', hl'⟩
    · by_cases hw : sink.writeOK w = true
      · simp only [loadLoop, hy, if_false, hw, if_true, List.mem_cons] at h
        rcases h with h | h
        · injection h with h
          exact ⟨d, List.mem_cons_self _ _, by omega, h⟩
        · obtain ⟨d', hd', hy', hl'⟩ := ih (w + 1) (loaded + 1) line h
          exact ⟨d', List.mem_cons_of_mem _ hd', hy', hl'⟩
      · simp only [loadLoop, hy, if_false] at h
        rw [if_neg hw] at h
        simp only [List.mem_singleton] at h
        injection h with h
        exact ⟨d, List.mem_cons_self _ _, by omega, h⟩

lemma writtenLines_append (a b : List SinkOp) :
    writtenLines (a ++ b) = writtenLines a ++ writtenLines b := by
  induction a with
  | nil => rfl
  | cons op rest ih =>
    cases op
    all_goals simp [writtenLines, ih]

lemma writtenLines_map_write (ls : List String) :
    writtenLines (ls.map SinkOp.write) = ls := by
  induction ls with
  | nil => rfl
  | cons l rest ih => simp [writtenLines, ih]

lemma writtenLines_loadSeries {data : Series} {seriesId table : String}
    {sink : SinkBehavior} (hc : sink.createOK = true)
    (hw : ∀ i, sink.writeOK i = true) :
    writtenLines (loadSeries data seriesId table sink).ops =
      keptLines seriesId (data.results.getD []) := by
  simp only [loadSeries, hc, if_true, loadLoop_allWrites hw]
  simp [writtenLines, writtenLines_append, writtenLines_map_write]

/-- Any line handed to the sink's row writer during a load comes from one
observation of the response whose resolved date met the 1970 floor, and is
that observation's row line. -/
lemma loadSeries_write_mem {data : Series} {seriesId table : String}
    {sink : SinkBehavior} {line : String}
    (h : SinkOp.write line ∈ (loadSeries data seriesId table sink).ops) :
    ∃ d, d ∈ data.results.getD [] ∧ 1970 ≤ (resolveDate d.date).year ∧
      line = rowLine seriesId (resolveDate d.date) d.value := by
  cases hc : sink.createOK with
  | false =>
    simp only [loadSeries, hc] at h
    simp at h
  | true =>
    simp only [loadSeries, hc, if_true, List.mem_cons, List.mem_append,
      List.mem_singleton] at h
    rcases h with (h | h) | h
    · exact absurd h (by simp)
    · exact loadLoop_write_mem _ 0 0 line h
    · exact absurd h (by simp)

/-! ## Claims -/

/-- C1, counterexample: a decoded response whose observation sequence is
present but empty (`some []`, a decoded `{"observations":[]}`) is NOT
treated as a fetch failure: the pipeline runs to success and the
create-table call is issued.  The `getSeries` check only catches a nil
(absent) observation slice. -/
theorem C1_counterexample :
    (run { results := some [] } "UNRATE" "tbl" allOk).2 = PipeResult.ok ∧
    (run { results := some [] } "UNRATE" "tbl" allOk).1 =
      [SinkOp.createTable "tbl" (makeTableTd "UNRATE"), SinkOp.insert,
       SinkOp.closeWriter] :=
  ⟨rfl, rfl⟩

/-- C1, amended: for every decoded response whose observation sequence is
absent (a nil slice), the fetch stage fails with the "no data returned"
error naming the series, and the pipeline fails before any sink call — in
particular before any create-table call. -/
theorem C1_theorem (parsed : Series) (seriesId table : String)
    (sink : SinkBehavior) (h : parsed.results = none) :
    run parsed seriesId table sink =
      ([], PipeResult.fetchFailed ("no data returned for series " ++ seriesId)) := by
  simp [run, getSeriesCheck, h]

/-- C1, witness: the amended claim at a concrete absent-observations
response. -/
theorem C1_witness :
    run { results := none } "UNRATE" "tbl" allOk =
      ([], PipeResult.fetchFailed ("no data returned for series " ++ "UNRATE")) :=
  C1_theorem { results := none } "UNRATE" "tbl" allOk rfl

/-- C2, counterexample: an observation whose date fails to parse is NOT
loaded: the run over a single malformed-date observation writes no row and
leaves the loaded counter at zero (the sentinel 1969-01-01 falls to the
pre-1970 floor check). -/
theorem C2_counterexample :
    loadSeries { results := some [{ date := "not-a-date", value := "1.2" }] }
        "S" "t" allOk =
      { ops := [SinkOp.createTable "t" (makeTableTd "S"), SinkOp.insert,
                SinkOp.closeWriter],
        err := none, loaded := 0 } :=
  rfl

/-- C2, amended: for every observation whose date string fails to parse,
the loader substitutes the sentinel missing-date value, and the row is then
dropped by the pre-1970 floor check (the sentinel year 1969 is below the
floor): processing the observation emits no sink call and leaves the
counter unchanged. -/
theorem C2_theorem (seriesId : String) (sink : SinkBehavior) (d : Datum)
    (rest : List Datum) (w loaded : Nat) (h : parseDate d.date = none) :
    resolveDate d.date = missing ∧
    loadLoop seriesId sink (d :: rest) w loaded =
      loadLoop seriesId sink rest w loaded := by
  have hr : resolveDate d.date = missing := by simp [resolveDate, h]
  exact ⟨hr, loadLoop_skip (by rw [hr]; decide)⟩

/-- C2, witness: the amended claim at a concrete malformed-date
observation. -/
theorem C2_witness :
    resolveDate "not-a-date" = missing ∧
    loadLoop "S" allOk [{ date := "not-a-date", value := "1.2" }] 0 0 =
      loadLoop "S" allOk [] 0 0 :=
  C2_theorem "S" allOk { date := "not-a-date", value := "1.2" } [] 0 0 rfl

/-- C3: every observation whose resolved date (parsed, or the sentinel
after a failed parse) has a year before 1970 is excluded entirely — the
loop step for it equals the loop over the remaining observations, so no
row write occurs and the loaded counter does not move.  The statement is
universally quantified over every observation, position, sink and run, so
this single drop policy is applied uniformly, never mixed with a
load-with-sentinel policy. -/
theorem C3_theorem (seriesId : String) (sink : SinkBehavior) (d : Datum)
    (rest : List Datum) (w loaded : Nat)
    (h : (resolveDate d.date).year < 1970) :
    loadLoop seriesId sink (d :: rest) w loaded =
      loadLoop seriesId sink rest w loaded :=
  loadLoop_skip h

/-- C3, witness: the floor drop at a concrete pre-1970 observation. -/
theorem C3_witness :
    loadLoop "S" allOk [{ date := "1950-01-01", value := "5.0" }] 0 0 =
      loadLoop "S" allOk [] 0 0 :=
  C3_theorem "S" allOk { date := "1950-01-01", value := "5.0" } [] 0 0 (by decide)

/-- C4: with a sink that accepts the create and every write, the lines
handed to the row writer are exactly the kept lines of the observation
sequence in response order (`List.filterMap` preserves order), and for an
observation with a valid `YYYY-MM-DD` date on or after the floor the kept
line carries the input date string and the raw value string verbatim. -/
theorem C4_theorem (data : Series) (seriesId table : String)
    (sink : SinkBehavior) (d : Datum) (dt : Date)
    (hc : sink.createOK = true) (hw : ∀ i, sink.writeOK i = true)
    (hp : parseDate d.date = some dt) (hy : 1970 ≤ dt.year) :
    writtenLines (loadSeries data seriesId table sink).ops =
      keptLines seriesId (data.results.getD []) ∧
    keptLine seriesId d =
      some ("'" ++ seriesId ++ "','" ++ d.date ++ "'," ++ d.value) := by
  refine ⟨writtenLines_loadSeries hc hw, ?_⟩
  have hr : resolveDate d.date = dt := by simp [resolveDate, hp]
  rw [keptLine, hr, if_neg (by omega)]
  rw [rowLine, parseDate_format hp]

/-- C4, witness: the round-trip at a concrete two-observation response. -/
theorem C4_witness :
    writtenLines (loadSeries
        { results := some [{ date := "2020-01-01", value := "3.6" },
                           { date := "2020-02-01", value := "3.5" }] }
        "UNRATE" "t" allOk).ops =
      keptLines "UNRATE"
        (({ results := some [{ date := "2020-01-01", value := "3.6" },
                             { date := "2020-02-01", value := "3.5" }] } :
            Series).results.getD []) ∧
    keptLine "UNRATE" { date := "2020-01-01", value := "3.6" } =
      some ("'" ++ "UNRATE" ++ "','" ++ "2020-01-01" ++ "'," ++ "3.6") :=
  C4_theorem _ "UNRATE" "t" allOk { date := "2020-01-01", value := "3.6" }
    ⟨2020, 1, 1⟩ rfl (fun _ => rfl) rfl (by decide)

/-- C5, counterexample: two successful runs that load different numbers of
rows (one and two) return the identical value to their caller — `loadSeries`
returns only a nil error on success, so the number of rows loaded is not
returned. -/
theorem C5_counterexample :
    (loadSeries { results := some [{ date := "2020-01-01", value := "3.6" }] }
        "S" "t" allOk).err =
      (loadSeries { results := some [{ date := "2020-01-01", value := "3.6" },
                                     { date := "2020-02-01", value := "3.5" }] }
        "S" "t" allOk).err ∧
    (loadSeries { results := some [{ date := "2020-01-01", value := "3.6" }] }
        "S" "t" allOk).loaded = 1 ∧
    (loadSeries { results := some [{ date := "2020-01-01", value := "3.6" },
                                   { date := "2020-02-01", value := "3.5" }] }
        "S" "t" allOk).loaded = 2 :=
  ⟨rfl, rfl, rfl⟩

/-- C5, amended: on a fully successful run the load operation returns only
a nil error — no row count reaches the caller; the internal `loaded`
counter does equal the number of rows written, but it is discarded, and
`main` reports only elapsed time. -/
theorem C5_theorem (data : Series) (seriesId table : String)
    (sink : SinkBehavior) (hc : sink.createOK = true)
    (hw : ∀ i, sink.writeOK i = true) (hi : sink.insertOK = true) :
    (loadSeries data seriesId table sink).err = none ∧
    (loadSeries data seriesId table sink).loaded =
      (writtenLines (loadSeries data seriesId table sink).ops).length := by
  have h := @loadLoop_allWrites seriesId sink hw (data.results.getD []) 0 0
  constructor
  · simp [loadSeries, hc, h, hi]
  · rw [writtenLines_loadSeries hc hw]
    simp [loadSeries, hc, h]

/-- C5, witness: the amended claim at a concrete successful run. -/
theorem C5_witness :
    (loadSeries { results := some [{ date := "2020-01-01", value := "3.6" }] }
        "S" "t" allOk).err = none ∧
    (loadSeries { results := some [{ date := "2020-01-01", value := "3.6" }] }
        "S" "t" allOk).loaded =
      (writtenLines (loadSeries
          { results := some [{ date := "2020-01-01", value := "3.6" }] }
          "S" "t" allOk).ops).length :=
  C5_theorem _ "S" "t" allOk rfl (fun _ => rfl) rfl

/-- C6: once the table is created, (a) a run that ends in a write error
never issues the `Insert` commit call, and (b) when every row write
succeeds the trace is exactly the create, the writes for the whole
observation sequence in order, one single `Insert`, and the deferred
close — so the one commit call comes only after the entire sequence has
been consumed. -/
theorem C6_theorem (data : Series) (seriesId table : String)
    (sink : SinkBehavior) (hc : sink.createOK = true) :
    ((loadSeries data seriesId table sink).err = some LoadError.writeError →
      SinkOp.insert ∉ (loadSeries data seriesId table sink).ops) ∧
    ((∀ i, sink.writeOK i = true) →
      (loadSeries data seriesId table sink).ops =
        SinkOp.createTable table (makeTableTd seriesId) ::
          (keptLines seriesId (data.results.getD [])).map SinkOp.write ++
          [SinkOp.insert, SinkOp.closeWriter]) := by
  constructor
  · intro he hmem
    simp only [loadSeries, hc, if_true] at he hmem
    have hni := loadLoop_writeError_no_insert (data.results.getD []) 0 0 he
    rcases List.mem_cons.mp hmem with h | h
    · exact absurd h (by simp)
    · rcases List.mem_append.mp h with h | h
      · exact hni h
      · simp at h
  · intro hw
    simp [loadSeries, hc, loadLoop_allWrites hw]

/-- C6, witness: no commit after a failing write (a sink refusing every
write), and the full ordered trace with one commit on an all-accepting
sink, both at a concrete one-observation response. -/
theorem C6_witness :
    (SinkOp.insert ∉
      (loadSeries { results := some [{ date := "2020-01-01", value := "3.6" }] }
        "S" "t" ⟨true, fun _ => false, true⟩).ops) ∧
    ((loadSeries { results := some [{ date := "2020-01-01", value := "3.6" }] }
        "S" "t" allOk).ops =
      SinkOp.createTable "t" (makeTableTd "S") ::
        (keptLines "S"
          (({ results := some [{ date := "2020-01-01", value := "3.6" }] } :
              Series).results.getD [])).map SinkOp.write ++
        [SinkOp.insert, SinkOp.closeWriter]) :=
  ⟨(C6_theorem _ "S" "t" ⟨true, fun _ => false, true⟩ rfl).1 rfl,
   (C6_theorem _ "S" "t" allOk rfl).2 (fun _ => rfl)⟩

/-- C7: every line handed to the sink's row writer is the three-field
serialization of one response observation: the series identifier between
single quotes, then the normalized date between single quotes — a string
of the `YYYY-MM-DD` shape — then the raw value string unquoted. -/
theorem C7_theorem (data : Series) (seriesId table : String)
    (sink : SinkBehavior) (line : String)
    (h : SinkOp.write line ∈ (loadSeries data seriesId table sink).ops) :
    ∃ d, d ∈ data.results.getD [] ∧
      line = "'" ++ seriesId ++ "','" ++ formatDate (resolveDate d.date)
        ++ "'," ++ d.value ∧
      isDateShape (formatDate (resolveDate d.date)) = true := by
  obtain ⟨d, hd, hy, hl⟩ := loadSeries_write_mem h
  obtain ⟨b1, b2, b3⟩ := resolveDate_bounds d.date
  rw [rowLine] at hl
  exact ⟨d, hd, hl, isDateShape_formatDate b1 b2 b3⟩

/-- C7, witness: the serialization shape of the one line written for a
concrete one-observation response. -/
theorem C7_witness :
    ∃ d, d ∈ ({ results := some [{ date := "2020-01-01", value := "3.6" }] } :
        Series).results.getD [] ∧
      "'S','2020-01-01',3.6" = "'" ++ "S" ++ "','"
        ++ formatDate (resolveDate d.date) ++ "'," ++ d.value ∧
      isDateShape (formatDate (resolveDate d.date)) = true :=
  C7_theorem _ "S" "t" allOk "'S','2020-01-01',3.6" (by decide)

/-- C8: for every series identifier the derived table definition is the
same three columns in the same order — `seriesId:String`, `date:Date`,
`value:Float32` — keyed by `date` on the MergeTree engine; two different
identifiers give identical column names, types, count, order, key and
engine, the identifier reaching only the value column's description. -/
theorem C8_theorem (seriesId other : String) :
    makeTableTd seriesId =
      { key := "date", engine := TableEngine.mergeTree,
        fds := [ { name := "seriesId", chSpec := { base := ChBaseType.chString },
                   description := "Fred II series ID" },
                 { name := "date", chSpec := { base := ChBaseType.chDate },
                   description := "date of metric value" },
                 { name := "value",
                   chSpec := { base := ChBaseType.chFloat, length := 32 },
                   description := "metric value for series " ++ seriesId } ] } ∧
    (makeTableTd seriesId).fds.map (fun f => (f.name, f.chSpec)) =
      (makeTableTd other).fds.map (fun f => (f.name, f.chSpec)) ∧
    (makeTableTd seriesId).key = (makeTableTd other).key ∧
    (makeTableTd seriesId).engine = (makeTableTd other).engine ∧
    (makeTableTd seriesId).fds.length = 3 :=
  ⟨rfl, rfl, rfl, rfl, rfl⟩

/-- C9: the row serializer interpolates the series identifier with no
escaping: a series identifier containing a single quote yields a row line
that is not in the well-formed quoted three-field shape the sink protocol
expects, while a quote-free identifier yields a well-formed one. -/
theorem C9_theorem :
    (("O'HARA" : String).data.contains '\'') = true ∧
    rowLine "O'HARA" ⟨2020, 1, 1⟩ "3.6" = "'O'HARA','2020-01-01',3.6" ∧
    wellFormedRow (rowLine "O'HARA" ⟨2020, 1, 1⟩ "3.6") = false ∧
    wellFormedRow (rowLine "UNRATE" ⟨2020, 1, 1⟩ "3.6") = true := by
  refine ⟨rfl, ?_, ?_, ?_⟩ <;> decide

/-- C10: the sentinel missing date is fixed at 1969-01-01, strictly below
the 1970 floor; every observation assigned the sentinel is dropped by the
floor check, and every line actually written comes from an observation
whose resolved date is on or after 1970 — in particular distinct from the
sentinel — so no written row carries the sentinel date. -/
theorem C10_theorem (data : Series) (seriesId table : String)
    (sink : SinkBehavior) (line : String) (d' : Datum) (rest : List Datum)
    (w loaded : Nat)
    (h : SinkOp.write line ∈ (loadSeries data seriesId table sink).ops)
    (h' : parseDate d'.date = none) :
    (missing = ⟨1969, 1, 1⟩ ∧ missing.year < 1970) ∧
    (resolveDate d'.date = missing ∧
      loadLoop seriesId sink (d' :: rest) w loaded =
        loadLoop seriesId sink rest w loaded) ∧
    (∃ d, d ∈ data.results.getD [] ∧ resolveDate d.date ≠ missing ∧
      1970 ≤ (resolveDate d.date).year ∧
      line = rowLine seriesId (resolveDate d.date) d.value) := by
  have hr : resolveDate d'.date = missing := by simp [resolveDate, h']
  refine ⟨⟨rfl, by decide⟩, ⟨hr, loadLoop_skip (by rw [hr]; decide)⟩, ?_⟩
  obtain ⟨d, hd, hy, hl⟩ := loadSeries_write_mem h
  refine ⟨d, hd, ?_, hy, hl⟩
  intro heq
  rw [heq] at hy
  exact absurd hy (by decide)

/-- C10, witness: the sentinel invariant at a concrete run writing one row
and a concrete sentinel-assigned observation. -/
theorem C10_witness :
    (missing = ⟨1969, 1, 1⟩ ∧ missing.year < 1970) ∧
    (resolveDate "not-a-date" = missing ∧
      loadLoop "S" allOk [{ date := "not-a-date", value := "1.2" }] 0 0 =
        loadLoop "S" allOk [] 0 0) ∧
    (∃ d, d ∈ ({ results := some [{ date := "2020-01-01", value := "3.6" }] } :
        Series).results.getD [] ∧ resolveDate d.date ≠ missing ∧
      1970 ≤ (resolveDate d.date).year ∧
      "'S','2020-01-01',3.6" = rowLine "S" (resolveDate d.date) d.value) :=
  C10_theorem _ "S" "t" allOk "'S','2020-01-01',3.6"
    { date := "not-a-date", value := "1.2" } [] 0 0 (by decide) rfl

end Fred2ch
